import Mathlib

/-!
# Verification of the hedera-sdk-rust transaction/query lifecycle engine

A shallow embedding, in Lean 4, of the client-side protocol engine found in
this repository: identifier/timestamp value types with their textual forms
(`src/id.rs`, `src/transaction_id.rs`), the transaction builder state machine
(`src/transaction/transaction.rs`, `src/transaction_crypto_transfer.rs`), and
the query cost/payment negotiation engine (`src/query/query.rs`).

Out-of-scope collaborators (per the specification): the RPC transport is an
argument (a function from the request index, or the dispatched message, to a
response), the protobuf byte serialization is modelled as the deterministic
identity on body records, and the ed25519 signing primitive is modelled as a
free term constructor pairing the secret key with the signed bytes.

Machine integers: the Rust `i64`/`u64`/`u32` fields are embedded as `Int`/`Nat`
with explicit range checks where the source behaviour depends on them (the
overflow check inside `str::parse`, the `cost as i64` cast).
-/

namespace Hedera

/-- `(shard, realm, num)` entity id triple, from the `define_id!` macro in
`src/id.rs` (the `AccountId` instantiation; `FileId`/`ContractId` are
field-renamed copies). Fields are Rust `i64`. -/
structure AccountId where
  shard : Int
  realm : Int
  num : Int
deriving DecidableEq, Repr

/-- Modelled from the spec: `Timestamp` lives in `src/timestamp.rs`, which is
not present under `src/`; the spec defines it as `(seconds: i64/u64,
nanos: u32)` with text form `"{seconds}.{nanos}"`. -/
structure Timestamp where
  seconds : Int
  nanos : Nat
deriving DecidableEq, Repr

/-- Modelled from the spec: subtraction of whole seconds on a `Timestamp`
(`Timestamp - u32_seconds`, used for the 5-second transaction backdate)
"saturates rather than underflows below zero". -/
def Timestamp.subSeconds (t : Timestamp) (s : Nat) : Timestamp :=
  { t with seconds := if t.seconds - (s : Int) < 0 then 0 else t.seconds - (s : Int) }

/-- `TransactionId` from `src/transaction_id.rs`. -/
structure TransactionId where
  account_id : AccountId
  transaction_valid_start : Timestamp
deriving DecidableEq, Repr

/-- `TransactionId::new` backdates the valid-start 5 seconds from the current
wall clock; the clock reading is an explicit `now` argument here. -/
def TransactionId.new (account : AccountId) (now : Timestamp) : TransactionId :=
  { account_id := account, transaction_valid_start := now.subSeconds 5 }

/-! ## Decimal text forms (`Display` / `FromStr`)

`src/id.rs` renders an id as `"{shard}:{realm}:{num}"` and parses by splitting
on `':'` or `'.'` and reading the first three pieces as `i64`;
`src/transaction_id.rs` renders `"{account_id}@{timestamp}"` and parses by
splitting on `'@'`. The decimal rendering/reading of a single integer is the
standard library's; it is embedded below as an explicit digit-list printer and
overflow-checked parser. -/

/-- ASCII digit for a value `0`–`9` (callers only pass values below 10). -/
def digitChar : Nat → Char
  | 0 => '0' | 1 => '1' | 2 => '2' | 3 => '3' | 4 => '4'
  | 5 => '5' | 6 => '6' | 7 => '7' | 8 => '8' | _ => '9'

/-- Decimal digits of `n`, most significant first. The `fuel` argument only
bounds the recursion depth (one digit per unit); `natToDigits` supplies
`n + 1`, which always suffices. -/
def natToDigitsAux : Nat → Nat → List Char
  | 0, _ => []
  | fuel + 1, n =>
    if n < 10 then [digitChar n]
    else natToDigitsAux fuel (n / 10) ++ [digitChar (n % 10)]

/-- Decimal representation of a natural number (Rust's `u64`/`u32` `Display`). -/
def natToDigits (n : Nat) : List Char :=
  natToDigitsAux (n + 1) n

/-- Decimal representation of an integer (Rust's `i64` `Display`). -/
def intToChars (i : Int) : List Char :=
  if i < 0 then '-' :: natToDigits i.natAbs else natToDigits i.toNat

/-- Numeric value of an ASCII digit, `none` for any other character. -/
def digitVal? (c : Char) : Option Nat :=
  if 48 ≤ c.toNat ∧ c.toNat ≤ 57 then some (c.toNat - 48) else none

/-- Left-to-right accumulation of a digit string (the core loop of
`str::parse`); fails on any non-digit character. -/
def parseDigitsAux (acc : Nat) : List Char → Option Nat
  | [] => some acc
  | c :: cs =>
    match digitVal? c with
    | some d => parseDigitsAux (acc * 10 + d) cs
    | none => none

/-- A non-empty all-digit string read as a natural number. -/
def parseNatDigits (cs : List Char) : Option Nat :=
  match cs with
  | [] => none
  | _ => parseDigitsAux 0 cs

/-- Rust `str::parse::<i64>`: optional `'-'`/`'+'` sign, then digits, with the
`i64` overflow check. -/
def parseI64 (cs : List Char) : Option Int :=
  match cs with
  | [] => none
  | c :: rest =>
    if c = '-' then
      (parseNatDigits rest).bind fun n =>
        if n ≤ 2 ^ 63 then some (-(n : Int)) else none
    else if c = '+' then
      (parseNatDigits rest).bind fun n =>
        if n < 2 ^ 63 then some (n : Int) else none
    else
      (parseNatDigits (c :: rest)).bind fun n =>
        if n < 2 ^ 63 then some (n : Int) else none

/-- Rust `str::parse::<u32>`: optional `'+'` sign, digits, `u32` overflow
check. -/
def parseU32 (cs : List Char) : Option Nat :=
  match cs with
  | [] => none
  | c :: rest =>
    if c = '+' then
      (parseNatDigits rest).bind fun n => if n < 2 ^ 32 then some n else none
    else
      (parseNatDigits (c :: rest)).bind fun n => if n < 2 ^ 32 then some n else none

/-- Rust's `str::split` over a set of separator characters: splits at every
occurrence, keeping empty pieces, always returning at least one piece. -/
def splitOn (seps : List Char) : List Char → List (List Char)
  | [] => [[]]
  | c :: rest =>
    if c ∈ seps then [] :: splitOn seps rest
    else
      match splitOn seps rest with
      | r :: rs => (c :: r) :: rs
      | [] => [[c]]

/-- `Display` for an entity id: `"{shard}:{realm}:{num}"` (`src/id.rs`). -/
def AccountId.toChars (x : AccountId) : List Char :=
  intToChars x.shard ++ ':' :: intToChars x.realm ++ ':' :: intToChars x.num

/-- Modelled from the spec: `Display` for `Timestamp` (missing
`src/timestamp.rs`), text form `"{seconds}.{nanos}"`. -/
def Timestamp.toChars (t : Timestamp) : List Char :=
  intToChars t.seconds ++ '.' :: natToDigits t.nanos

/-- `Display` for `TransactionId`: `"{account_id}@{transaction_valid_start}"`
(`src/transaction_id.rs`). -/
def TransactionId.toChars (tid : TransactionId) : List Char :=
  tid.account_id.toChars ++ '@' :: tid.transaction_valid_start.toChars

/-- `FromStr` for an entity id (`src/id.rs`): split on `':'` or `'.'`, read the
first three pieces as `i64` (`next_tuple` ignores any further pieces). -/
def AccountId.fromChars (cs : List Char) : Option AccountId :=
  match splitOn [':', '.'] cs with
  | a :: b :: c :: _ => do
    let shard ← parseI64 a
    let realm ← parseI64 b
    let num ← parseI64 c
    pure ⟨shard, realm, num⟩
  | _ => none

/-- Modelled from the spec: `FromStr` for `Timestamp` (missing
`src/timestamp.rs`), reading `"{seconds}.{nanos}"` in the same
split-and-take style as the sibling parsers. -/
def Timestamp.fromChars (cs : List Char) : Option Timestamp :=
  match splitOn ['.'] cs with
  | s :: n :: _ => do
    let seconds ← parseI64 s
    let nanos ← parseU32 n
    pure ⟨seconds, nanos⟩
  | _ => none

/-- `FromStr` for `TransactionId` (`src/transaction_id.rs`): split on `'@'`,
parse the first piece as the account id and the second as the timestamp. -/
def TransactionId.fromChars (cs : List Char) : Option TransactionId :=
  match splitOn ['@'] cs with
  | a :: t :: _ => do
    let account_id ← AccountId.fromChars a
    let ts ← Timestamp.fromChars t
    pure ⟨account_id, ts⟩
  | _ => none

/-! ### Correctness of the decimal printer/parser pair -/

theorem digitVal?_digitChar {d : Nat} (h : d < 10) :
    digitVal? (digitChar d) = some d := by
  interval_cases d <;> rfl

theorem digitChar_toNat {d : Nat} (h : d < 10) :
    (digitChar d).toNat = 48 + d := by
  interval_cases d <;> rfl

theorem mem_natToDigitsAux {fuel n : Nat} {c : Char}
    (hc : c ∈ natToDigitsAux fuel n) : ∃ d, d < 10 ∧ c = digitChar d := by
  induction fuel generalizing n with
  | zero => simp [natToDigitsAux] at hc
  | succ fuel ih =>
    rw [natToDigitsAux] at hc
    by_cases h : n < 10
    · simp [h] at hc
      exact ⟨n, h, hc⟩
    · simp [h] at hc
      rcases hc with hc | hc
      · exact ih hc
      · exact ⟨n % 10, Nat.mod_lt _ (by norm_num), hc⟩

theorem parseDigitsAux_append (acc : Nat) (xs ys : List Char) :
    parseDigitsAux acc (xs ++ ys) =
      (parseDigitsAux acc xs).bind fun m => parseDigitsAux m ys := by
  induction xs generalizing acc with
  | nil => simp [parseDigitsAux]
  | cons c cs ih =>
    simp only [List.cons_append, parseDigitsAux]
    cases digitVal? c with
    | none => rfl
    | some d => exact ih _

theorem parseDigitsAux_natToDigitsAux {fuel n : Nat} (hn : n < fuel) (acc : Nat) :
    parseDigitsAux acc (natToDigitsAux fuel n) =
      some (acc * 10 ^ (natToDigitsAux fuel n).length + n) := by
  induction fuel generalizing n acc with
  | zero => omega
  | succ fuel ih =>
    rw [natToDigitsAux]
    by_cases h : n < 10
    · simp [parseDigitsAux, digitVal?_digitChar h, h]
    · have hdiv : n / 10 < fuel := by
        have h1 : n / 10 < n := Nat.div_lt_self (by omega) (by norm_num)
        omega
      rw [if_neg h, parseDigitsAux_append, ih hdiv acc]
      have key : ∀ m : Nat,
          (acc * 10 ^ m + n / 10) * 10 + n % 10 = acc * 10 ^ (m + 1) + n := by
        intro m
        calc (acc * 10 ^ m + n / 10) * 10 + n % 10
            = acc * (10 ^ m * 10) + (10 * (n / 10) + n % 10) := by ring
          _ = acc * 10 ^ (m + 1) + n := by rw [Nat.div_add_mod, pow_succ]
      simp only [Option.some_bind, parseDigitsAux,
        digitVal?_digitChar (Nat.mod_lt n (show 0 < 10 by norm_num)),
        List.length_append, List.length_cons, List.length_nil, Nat.zero_add]
      rw [key]

theorem natToDigits_ne_nil (n : Nat) : natToDigits n ≠ [] := by
  rw [natToDigits, natToDigitsAux]
  by_cases h : n < 10 <;> simp [h]

theorem parseNatDigits_natToDigits (n : Nat) :
    parseNatDigits (natToDigits n) = some n := by
  have h := parseDigitsAux_natToDigitsAux (Nat.lt_succ_self n) 0
  rw [show natToDigitsAux (n + 1) n = natToDigits n from rfl] at h
  cases hd : natToDigits n with
  | nil => exact absurd hd (natToDigits_ne_nil n)
  | cons c cs =>
    rw [hd] at h
    show parseDigitsAux 0 (c :: cs) = some n
    simpa using h

theorem natToDigits_head_digit {n : Nat} {c : Char} {cs : List Char}
    (h : natToDigits n = c :: cs) : 48 ≤ c.toNat ∧ c.toNat ≤ 57 := by
  have hc : c ∈ natToDigitsAux (n + 1) n := by
    rw [natToDigits] at h
    rw [h]
    exact List.mem_cons_self _ _
  obtain ⟨d, hd, rfl⟩ := mem_natToDigitsAux hc
  rw [digitChar_toNat hd]
  omega

theorem parseI64_natToDigits {n : Nat} (h : n < 2 ^ 63) :
    parseI64 (natToDigits n) = some (n : Int) := by
  cases hd : natToDigits n with
  | nil => exact absurd hd (natToDigits_ne_nil n)
  | cons c cs =>
    obtain ⟨h48, h57⟩ := natToDigits_head_digit hd
    have hminus : c ≠ '-' := by
      intro hc; rw [hc] at h48; exact absurd h48 (by decide)
    have hplus : c ≠ '+' := by
      intro hc; rw [hc] at h48; exact absurd h48 (by decide)
    rw [parseI64, if_neg hminus, if_neg hplus, ← hd, parseNatDigits_natToDigits]
    show (if n < 2 ^ 63 then some ((n : Nat) : Int) else none) = some (n : Int)
    rw [if_pos h]

theorem parseU32_natToDigits {n : Nat} (h : n < 2 ^ 32) :
    parseU32 (natToDigits n) = some n := by
  cases hd : natToDigits n with
  | nil => exact absurd hd (natToDigits_ne_nil n)
  | cons c cs =>
    obtain ⟨h48, h57⟩ := natToDigits_head_digit hd
    have hplus : c ≠ '+' := by
      intro hc; rw [hc] at h48; exact absurd h48 (by decide)
    rw [parseU32, if_neg hplus, ← hd, parseNatDigits_natToDigits]
    show (if n < 2 ^ 32 then some n else none) = some n
    rw [if_pos h]

theorem intToChars_nonneg {i : Int} (h : 0 ≤ i) :
    intToChars i = natToDigits i.toNat := by
  rw [intToChars, if_neg (by omega)]

theorem parseI64_intToChars {i : Int} (h0 : 0 ≤ i) (h1 : i < 2 ^ 63) :
    parseI64 (intToChars i) = some i := by
  rw [intToChars_nonneg h0, parseI64_natToDigits (by omega), Int.toNat_of_nonneg h0]

/-! ### Splitting lemmas -/

theorem splitOn_sepFree {seps : List Char} {xs : List Char}
    (h : ∀ c ∈ xs, c ∉ seps) : splitOn seps xs = [xs] := by
  induction xs with
  | nil => rfl
  | cons c cs ih =>
    rw [splitOn, if_neg (h c (List.mem_cons_self _ _)),
      ih fun c hc => h c (List.mem_cons_of_mem _ hc)]

theorem splitOn_append_sep {seps xs ys : List Char} {s : Char}
    (hxs : ∀ c ∈ xs, c ∉ seps) (hs : s ∈ seps) :
    splitOn seps (xs ++ s :: ys) = xs :: splitOn seps ys := by
  induction xs with
  | nil => simp [splitOn, hs]
  | cons c cs ih =>
    rw [List.cons_append, splitOn, if_neg (hxs c (List.mem_cons_self _ _)),
      ih fun c hc => hxs c (List.mem_cons_of_mem _ hc)]

/-- Every character of the decimal form of a non-negative integer is an ASCII
digit. -/
theorem mem_intToChars_nonneg {i : Int} (h : 0 ≤ i) {c : Char}
    (hc : c ∈ intToChars i) : 48 ≤ c.toNat ∧ c.toNat ≤ 57 := by
  rw [intToChars_nonneg h, natToDigits] at hc
  obtain ⟨d, hd, rfl⟩ := mem_natToDigitsAux hc
  rw [digitChar_toNat hd]
  omega

theorem mem_natToDigits_digit {n : Nat} {c : Char} (hc : c ∈ natToDigits n) :
    48 ≤ c.toNat ∧ c.toNat ≤ 57 := by
  rw [natToDigits] at hc
  obtain ⟨d, hd, rfl⟩ := mem_natToDigitsAux hc
  rw [digitChar_toNat hd]
  omega

theorem digit_not_colon_dot {c : Char} (h48 : 48 ≤ c.toNat) (h57 : c.toNat ≤ 57) :
    c ∉ ([':', '.'] : List Char) := by
  intro hm
  rcases List.mem_cons.1 hm with rfl | hm
  · exact absurd h57 (by decide)
  · rcases List.mem_cons.1 hm with rfl | hm
    · exact absurd h48 (by decide)
    · simp at hm

theorem digit_not_dot {c : Char} (h48 : 48 ≤ c.toNat) (h57 : c.toNat ≤ 57) :
    c ∉ (['.'] : List Char) := by
  intro hm
  rcases List.mem_cons.1 hm with rfl | hm
  · exact absurd h48 (by decide)
  · simp at hm

/-- Splitting the rendered id on `':'`/`'.'` recovers the three decimal pieces. -/
theorem splitOn_accountIdToChars {x : AccountId}
    (h0 : 0 ≤ x.shard) (h1 : 0 ≤ x.realm) (h2 : 0 ≤ x.num) :
    splitOn [':', '.'] x.toChars =
      [intToChars x.shard, intToChars x.realm, intToChars x.num] := by
  rw [AccountId.toChars]
  simp only [List.cons_append, List.append_assoc]
  rw [splitOn_append_sep
    (fun c hc => digit_not_colon_dot (mem_intToChars_nonneg h0 hc).1
      (mem_intToChars_nonneg h0 hc).2) (by decide)]
  rw [splitOn_append_sep
    (fun c hc => digit_not_colon_dot (mem_intToChars_nonneg h1 hc).1
      (mem_intToChars_nonneg h1 hc).2) (by decide)]
  rw [splitOn_sepFree
    (fun c hc => digit_not_colon_dot (mem_intToChars_nonneg h2 hc).1
      (mem_intToChars_nonneg h2 hc).2)]

/-- `parse(to_string(x)) == x` for entity ids with non-negative in-range
components. -/
theorem accountId_roundtrip {x : AccountId}
    (h0 : 0 ≤ x.shard) (h0' : x.shard < 2 ^ 63)
    (h1 : 0 ≤ x.realm) (h1' : x.realm < 2 ^ 63)
    (h2 : 0 ≤ x.num) (h2' : x.num < 2 ^ 63) :
    AccountId.fromChars x.toChars = some x := by
  rw [AccountId.fromChars, splitOn_accountIdToChars h0 h1 h2]
  simp [parseI64_intToChars h0 h0', parseI64_intToChars h1 h1',
    parseI64_intToChars h2 h2']

/-- Splitting the rendered timestamp on `'.'` recovers seconds and nanos. -/
theorem splitOn_timestampToChars {t : Timestamp} (h0 : 0 ≤ t.seconds) :
    splitOn ['.'] t.toChars = [intToChars t.seconds, natToDigits t.nanos] := by
  rw [Timestamp.toChars]
  rw [splitOn_append_sep
    (fun c hc => digit_not_dot (mem_intToChars_nonneg h0 hc).1
      (mem_intToChars_nonneg h0 hc).2) (by decide)]
  rw [splitOn_sepFree
    (fun c hc => digit_not_dot (mem_natToDigits_digit hc).1
      (mem_natToDigits_digit hc).2)]

theorem timestamp_roundtrip {t : Timestamp}
    (h0 : 0 ≤ t.seconds) (h0' : t.seconds < 2 ^ 63) (h1 : t.nanos < 2 ^ 32) :
    Timestamp.fromChars t.toChars = some t := by
  rw [Timestamp.fromChars, splitOn_timestampToChars h0]
  simp [parseI64_intToChars h0 h0', parseU32_natToDigits h1]

/-- No character of a rendered account id or timestamp is `'@'`. -/
theorem accountIdToChars_no_at {x : AccountId}
    (h0 : 0 ≤ x.shard) (h1 : 0 ≤ x.realm) (h2 : 0 ≤ x.num) {c : Char}
    (hc : c ∈ x.toChars) : c ∉ (['@'] : List Char) := by
  intro hm
  rcases List.mem_cons.1 hm with rfl | hm
  · rw [AccountId.toChars] at hc
    simp only [List.cons_append, List.append_assoc, List.mem_append,
      List.mem_cons] at hc
    rcases hc with hc | hc | hc | hc | hc
    · exact absurd (mem_intToChars_nonneg h0 hc).2 (by decide)
    · exact absurd hc (by decide)
    · exact absurd (mem_intToChars_nonneg h1 hc).2 (by decide)
    · exact absurd hc (by decide)
    · exact absurd (mem_intToChars_nonneg h2 hc).2 (by decide)
  · simp at hm

theorem timestampToChars_no_at {t : Timestamp} (h0 : 0 ≤ t.seconds) {c : Char}
    (hc : c ∈ t.toChars) : c ∉ (['@'] : List Char) := by
  intro hm
  rcases List.mem_cons.1 hm with rfl | hm
  · rw [Timestamp.toChars] at hc
    simp only [List.mem_append, List.mem_cons] at hc
    rcases hc with hc | hc | hc
    · exact absurd (mem_intToChars_nonneg h0 hc).2 (by decide)
    · exact absurd hc (by decide)
    · exact absurd (mem_natToDigits_digit hc).2 (by decide)
  · simp at hm

theorem transactionId_roundtrip {t : TransactionId}
    (ha0 : 0 ≤ t.account_id.shard) (ha0' : t.account_id.shard < 2 ^ 63)
    (ha1 : 0 ≤ t.account_id.realm) (ha1' : t.account_id.realm < 2 ^ 63)
    (ha2 : 0 ≤ t.account_id.num) (ha2' : t.account_id.num < 2 ^ 63)
    (hs : 0 ≤ t.transaction_valid_start.seconds)
    (hs' : t.transaction_valid_start.seconds < 2 ^ 63)
    (hn : t.transaction_valid_start.nanos < 2 ^ 32) :
    TransactionId.fromChars t.toChars = some t := by
  rw [TransactionId.toChars, TransactionId.fromChars]
  rw [splitOn_append_sep (fun c hc => accountIdToChars_no_at ha0 ha1 ha2 hc)
    (by decide)]
  rw [splitOn_sepFree (fun c hc => timestampToChars_no_at hs hc)]
  simp [accountId_roundtrip ha0 ha0' ha1 ha1' ha2 ha2',
    timestamp_roundtrip hs hs' hn]

/-- C9: for every entity id with non-negative (`i64`-ranged) components,
`parse(to_string(x)) == x` — with `':'` or `'.'` accepted as separator on
parse — and likewise for `TransactionId`; and the entity id `(7,5,1001)`
with `Timestamp{seconds:1234567, nanos:10001}` forms a `TransactionId`
whose text form is exactly `"7:5:1001@1234567.10001"`. -/
theorem entityId_transactionId_text_roundtrip
    (x : AccountId)
    (h0 : 0 ≤ x.shard) (h0' : x.shard < 2 ^ 63)
    (h1 : 0 ≤ x.realm) (h1' : x.realm < 2 ^ 63)
    (h2 : 0 ≤ x.num) (h2' : x.num < 2 ^ 63)
    (t : TransactionId)
    (ha0 : 0 ≤ t.account_id.shard) (ha0' : t.account_id.shard < 2 ^ 63)
    (ha1 : 0 ≤ t.account_id.realm) (ha1' : t.account_id.realm < 2 ^ 63)
    (ha2 : 0 ≤ t.account_id.num) (ha2' : t.account_id.num < 2 ^ 63)
    (hs : 0 ≤ t.transaction_valid_start.seconds)
    (hs' : t.transaction_valid_start.seconds < 2 ^ 63)
    (hn : t.transaction_valid_start.nanos < 2 ^ 32) :
    AccountId.fromChars x.toChars = some x ∧
    TransactionId.fromChars t.toChars = some t ∧
    AccountId.fromChars "7.5.1001".toList = some ⟨7, 5, 1001⟩ ∧
    (TransactionId.toChars ⟨⟨7, 5, 1001⟩, ⟨1234567, 10001⟩⟩).asString =
      "7:5:1001@1234567.10001" := by
  refine ⟨accountId_roundtrip h0 h0' h1 h1' h2 h2',
    transactionId_roundtrip ha0 ha0' ha1 ha1' ha2 ha2' hs hs' hn, ?_, ?_⟩
  · rfl
  · rfl

theorem entityId_transactionId_text_roundtrip_witness :
    AccountId.fromChars (AccountId.toChars ⟨7, 5, 1001⟩) = some ⟨7, 5, 1001⟩ ∧
    TransactionId.fromChars
        (TransactionId.toChars ⟨⟨7, 5, 1001⟩, ⟨1234567, 10001⟩⟩) =
      some ⟨⟨7, 5, 1001⟩, ⟨1234567, 10001⟩⟩ ∧
    AccountId.fromChars "7.5.1001".toList = some ⟨7, 5, 1001⟩ ∧
    (TransactionId.toChars ⟨⟨7, 5, 1001⟩, ⟨1234567, 10001⟩⟩).asString =
      "7:5:1001@1234567.10001" :=
  entityId_transactionId_text_roundtrip ⟨7, 5, 1001⟩
    (by decide) (by decide) (by decide) (by decide) (by decide) (by decide)
    ⟨⟨7, 5, 1001⟩, ⟨1234567, 10001⟩⟩
    (by decide) (by decide) (by decide) (by decide) (by decide) (by decide)
    (by decide) (by decide) (by decide)

/-! ## Precheck codes, errors, keys, wire messages

`PreCheckCode` and the `try_precheck!` macro live in source files not present
under `src/`; they are modelled from the spec (§3, §4.2): a closed enumeration
with `Ok`, `InvalidTransaction`, `Busy`, and all other codes terminal
failures. `ErrorKind` is `src/error.rs` verbatim. -/

/-- Modelled from the spec: the server-reported precheck outcome vocabulary
(its defining source file is not under `src/`). `other n` stands for any of
the remaining terminal-failure codes. -/
inductive PreCheckCode where
  | ok
  | invalidTransaction
  | busy
  | other (code : Nat)
deriving DecidableEq, Repr

/-- `ErrorKind` from `src/error.rs`. -/
inductive ErrorKind where
  | MissingField (name : String)
  | Parse (expected : String)
  | PreCheck (code : PreCheckCode)
deriving DecidableEq, Repr

/-- An ed25519 secret key, opaque key material (the signing primitive is an
out-of-scope collaborator). -/
structure SecretKey where
  key : Nat
deriving DecidableEq, Repr

/-- The operation payload tagged union (`TransactionBody_oneof_data`),
restricted to the variants dispatched by `src/transaction/transaction.rs`.
Per the spec the operations' business fields are out of scope; only the data
the envelope engine itself reads is kept: the transfer list of
`cryptoTransfer` (built by `Transaction::transfer`) and the optional
`transferAccountID` of `cryptoDelete` (defaulted at execute time). -/
inductive TransactionData where
  | cryptoCreateAccount
  | cryptoTransfer (transfers : List (AccountId × Int))
  | cryptoDelete (transferAccountID : Option AccountId)
  | cryptoDeleteClaim
  | fileCreate
  | fileAppend
  | contractCreateInstance
deriving DecidableEq, Repr

/-- The wire `TransactionBody` as produced by
`TransactionBuilder::to_proto` (every optional field is set there, so fields
are plain). -/
structure TransactionBody where
  transactionID : TransactionId
  nodeAccountID : AccountId
  transactionFee : Nat
  transactionValidDurationSecs : Nat
  generateRecord : Bool
  memo : String
  data : TransactionData
deriving DecidableEq, Repr

/-- The protobuf byte serialization of a body (`write_to_bytes`) is an
out-of-scope collaborator assumed deterministic and injective; it is modelled
as the body record itself. -/
def writeToBytes (body : TransactionBody) : TransactionBody := body

/-- A wire `Signature`: either a single ed25519 signature — modelled freely as
the pair of the signing key and the signed bytes — or a nested signature
list (`set_signatureList`). -/
inductive Signature where
  | ed25519 (key : SecretKey) (message : TransactionBody)
  | sigList (sigs : List Signature)

/-- The wire `Transaction` envelope: a body plus an optional signature list.
`to_proto` leaves `sigs` unset; the container is first created inside
`sign`. -/
structure ProtoTransaction where
  body : TransactionBody
  sigs : Option (List Signature)

/-! ## Transaction engine (`src/transaction/transaction.rs`) -/

/-- `TransactionBuilder<T>`: the mutable envelope fields plus the boxed
operation payload (`inner`). -/
structure TransactionBuilder where
  id : Option TransactionId
  node : Option AccountId
  memo : Option String
  generate_record : Bool
  fee : Nat
  inner : TransactionData

/-- `TransactionRaw`: the frozen canonical body bytes plus the wire message
being accumulated. -/
structure TransactionRaw where
  bytes : TransactionBody
  tx : ProtoTransaction

/-- `TransactionKind<T>`: the four lifecycle states (`Empty` is the
just-executed/consumed marker left behind by `TransactionKind::take`). -/
inductive TransactionKind where
  | Empty
  | Err (e : ErrorKind)
  | Builder (b : TransactionBuilder)
  | Raw (r : TransactionRaw)

/-- `Transaction<T, S>`: lifecycle state plus the client's default operator
secret captured at construction (service stubs are out-of-scope transport). -/
structure Transaction where
  secret : Option SecretKey
  kind : TransactionKind

/-- The result of a call: a value, a typed `failure::Error` carrying an
`ErrorKind`, or a Rust panic. -/
inductive Outcome (α : Type) where
  | ok (val : α)
  | err (e : ErrorKind)
  | panic (msg : String)

/-- That subset of `Client` (the generation used by `src/query/query.rs` /
`src/transaction/transaction.rs`, whose fields appear in the struct literal at
`src/query/query.rs:81-88`) read by the engines: default node, operator and
operator secret. The three service stubs are out-of-scope transport. -/
structure Client where
  node : Option AccountId
  operator : Option AccountId
  operator_secret : Option SecretKey

/-- `Transaction::new`: capture the client defaults; a fresh builder carries
`fee = 10`, `generate_record = false`, no memo, and an operator transaction id
derived from the client operator and the current clock (`now` argument). -/
def Transaction.new (client : Client) (now : Timestamp) (inner : TransactionData) :
    Transaction :=
  { secret := client.operator_secret,
    kind := .Builder
      { id := client.operator.map fun a => TransactionId.new a now,
        node := client.node, memo := none, inner := inner,
        fee := 10, generate_record := false } }

/-- `Transaction::<TransactionCryptoTransfer>::transfer`: push one
`(account, amount)` pair onto the payload. Goes through
`as_builder`/`inner` which panic outside the `Building` state (`as_builder`
yields `None` in the `Err` state so `inner`'s `unwrap` panics). -/
def Transaction.transfer (t : Transaction) (id : AccountId) (amount : Int) :
    Outcome Transaction :=
  match t.kind with
  | .Builder b =>
    match b.inner with
    | .cryptoTransfer ts =>
      .ok { t with kind := .Builder { b with inner := .cryptoTransfer (ts ++ [(id, amount)]) } }
    | _ => .panic "downcast to concrete payload failed"
  | .Raw _ => .panic "cannot edit a transaction after it has been signed"
  | .Err _ => .panic "called unwrap on None"
  | .Empty => .panic "transaction already executed"

/-- `TransactionBuilder::to_proto` (the `TransactionBody` instance): require
the operator transaction id, then the node id, then assemble the body with a
fixed 120-second valid duration and an empty memo when unset. -/
def TransactionBuilder.toProtoBody (b : TransactionBuilder) :
    Except ErrorKind TransactionBody :=
  match b.id with
  | none => .error (.MissingField "operator")
  | some txId =>
    match b.node with
    | none => .error (.MissingField "node")
    | some node =>
      .ok { transactionID := txId, nodeAccountID := node,
            transactionFee := b.fee, transactionValidDurationSecs := 120,
            generateRecord := b.generate_record,
            memo := b.memo.getD "", data := b.inner }

/-- `Transaction::build`: no-op once `Raw` or `Err`; from `Builder`,
serialize the body once into the frozen bytes (success) or latch the error
(failure); panic on a consumed transaction. -/
def Transaction.build (t : Transaction) : Outcome Transaction :=
  match t.kind with
  | .Empty => .panic "transaction already executed"
  | .Raw _ => .ok t
  | .Err _ => .ok t
  | .Builder b =>
    match b.toProtoBody with
    | .ok body =>
      .ok { t with kind := .Raw { tx := { body := body, sigs := none },
                                  bytes := writeToBytes body } }
    | .error e => .ok { t with kind := .Err e }

/-- The file-create/file-append special case in
`Transaction::<T, TransactionRaw>::sign`: those two payload kinds get every
explicitly-added signature wrapped into a single-element signature list. -/
def wrapIfFileOp (data : TransactionData) (sig : Signature) : Signature :=
  match data with
  | .fileCreate => .sigList [sig]
  | .fileAppend => .sigList [sig]
  | _ => sig

/-- `Transaction::<T, TransactionRaw>::sign`: sign the frozen bytes, create
the signature-list container if absent, wrap for file operations, and append.
In the `Err` state `as_raw` yields `None`, so the call silently returns
`self` unchanged; it never returns the latched error (its return type has no
error channel). -/
def Transaction.signRaw (t : Transaction) (secret : SecretKey) : Outcome Transaction :=
  match t.kind with
  | .Raw state =>
    let signature := Signature.ed25519 secret state.bytes
    let signature := wrapIfFileOp state.tx.body.data signature
    let existing := state.tx.sigs.getD []
    let state' := { state with tx := { state.tx with sigs := some (existing ++ [signature]) } }
    .ok { t with kind := TransactionKind.Raw state' }
  | .Err _ => .ok t
  | .Builder _ => .panic "not possible in safe rust"
  | .Empty => .panic "transaction already executed"

/-- A sequence of explicit `sign` calls, in call order. -/
def Transaction.signMany (t : Transaction) (keys : List SecretKey) : Outcome Transaction :=
  match keys with
  | [] => .ok t
  | k :: ks =>
    match t.signRaw k with
    | .ok t' => t'.signMany ks
    | .err e => .err e
    | .panic m => .panic m

/-- The `cryptoDelete` special case inside `execute`'s dispatch: default an
unset `transferAccountID` to the transaction's own operator account
immediately before send. -/
def defaultDeleteTransfer (tx : ProtoTransaction) : ProtoTransaction :=
  let operator := tx.body.transactionID.account_id
  match tx.body.data with
  | .cryptoDelete none =>
    { tx with body := { tx.body with data := .cryptoDelete (some operator) } }
  | _ => tx

/-- The stretch of `execute` between taking the raw state and the RPC call:
if the client captured an operator secret, sign the frozen bytes as the
operator and insert that signature at index 0 of the signature list — whose
absence (`tx.sigs.as_mut().unwrap()`) is a panic, returned as `none` here —
then apply the `cryptoDelete` defaulting. -/
def prepareForDispatch (secret : Option SecretKey) (raw : TransactionRaw) :
    Option ProtoTransaction :=
  let withOperatorSig : Option ProtoTransaction :=
    match secret with
    | none => some raw.tx
    | some k =>
      match raw.tx.sigs with
      | none => none
      | some ss =>
        some { raw.tx with sigs := some (Signature.ed25519 k raw.bytes :: ss) }
  match withOperatorSig with
  | none => none
  | some tx => some (defaultDeleteTransfer tx)

/-- `Transaction::<T, TransactionRaw>::execute`: `kind.take()` consumes the
transaction (leaving `Empty`), a latched error is returned, the operator
signature is inserted, the message is dispatched, and `try_precheck!`
(modelled from the spec: `Ok` succeeds, any other code fails with
`PreCheck(code)`) maps the response. `transport` is the out-of-scope RPC
boundary: the precheck code the node answers with for the dispatched
message. Returns the call result (carrying, on success, the transaction id
and the message as dispatched) and the consumed transaction. -/
def Transaction.execute (t : Transaction) (transport : ProtoTransaction → PreCheckCode) :
    Outcome (TransactionId × ProtoTransaction) × Transaction :=
  let consumed : Transaction := { t with kind := .Empty }
  match t.kind with
  | .Raw raw =>
    match prepareForDispatch t.secret raw with
    | none => (.panic "called unwrap on None", consumed)
    | some tx =>
      let id := tx.body.transactionID
      match transport tx with
      | .ok => (.ok (id, tx), consumed)
      | code => (.err (.PreCheck code), consumed)
  | .Err e => (.err e, consumed)
  | .Builder _ => (.panic "not possible in safe rust", consumed)
  | .Empty => (.panic "transaction already executed", consumed)

/-- `Transaction::take_raw`: `kind.take()` then hand out the raw state; on a
latched error return it; in the `Builder` case the inner `self.build()`
observes the already-taken (`Empty`) kind and panics. -/
def Transaction.takeRaw (t : Transaction) :
    Outcome (TransactionRaw × Transaction) :=
  let consumed : Transaction := { t with kind := .Empty }
  match t.kind with
  | .Raw raw => .ok (raw, consumed)
  | .Err e => .err e
  | .Builder _ => .panic "transaction already executed"
  | .Empty => .panic "transaction already executed"

/-! ## Query engine (`src/query/query.rs`) -/

/-- `proto::QueryHeader::ResponseType` as used by the engine. -/
inductive ResponseType where
  | answerOnly
  | costAnswer
deriving DecidableEq, Repr

/-- The response header the engines read: the precheck code and the quoted
cost (`header.get_cost()`). The rest of the response envelope is handed to
the query-specific `inner.get` and is out of scope. -/
structure ResponseHeader where
  precheck : PreCheckCode
  cost : Nat
deriving DecidableEq, Repr

/-- A `Query<T>`: response type toggle, optional attached payment, the
client defaults captured at construction, and the attempt counter (the
query-kind payload `inner` and its typed response are out of scope). -/
structure Query where
  kind : ResponseType
  payment : Option ProtoTransaction
  secret : Option SecretKey
  operator : Option AccountId
  node : Option AccountId
  attempt : Nat

/-- `Query::new`: capture the client defaults; `ANSWER_ONLY`, no payment,
attempt 0. -/
def Query.new (client : Client) : Query :=
  { kind := .answerOnly, payment := none, secret := client.operator_secret,
    operator := client.operator, node := client.node, attempt := 0 }

/-- Observable protocol actions of one `get`/`cost` call: each request sent
(with its response type and attached payment) and each `sleep`, in order. -/
inductive QEvent where
  | send (kind : ResponseType) (payment : Option ProtoTransaction)
  | sleep (secs : Nat)

/-- Everything one `get`/`cost` call produces: its result, the final query
state, the ordered event trace, and the total number of requests sent. -/
structure QueryRun (α : Type) where
  result : Outcome α
  final : Query
  events : List QEvent
  calls : Nat

/-- The implicit-payment construction inside `get`'s `InvalidTransaction`
branch: a `TransactionCryptoTransfer` on a clone of the client defaults,
`.transfer(node, cost as i64).transfer(operator, -(cost as i64))`, then
`.build().take_raw()?.tx`. The `u64 → i64` cast wraps. Never explicitly
signed. -/
def synthesizePayment (client : Client) (now : Timestamp) (cost : Nat) :
    Outcome ProtoTransaction :=
  match client.node, client.operator with
  | some nd, some op =>
    let amount : Int := if cost < 2 ^ 63 then (cost : Int) else (cost : Int) - 2 ^ 64
    let t0 := Transaction.new client now (.cryptoTransfer [])
    match t0.transfer nd amount with
    | .ok t1 =>
      match t1.transfer op (-amount) with
      | .ok t2 =>
        match t2.build with
        | .ok t3 =>
          match t3.takeRaw with
          | .ok (raw, _) => .ok raw.tx
          | .err e => .err e
          | .panic m => .panic m
        | .err e => .err e
        | .panic m => .panic m
      | .err e => .err e
      | .panic m => .panic m
    | .err e => .err e
    | .panic m => .panic m
  | _, _ => .panic "called unwrap on None"

/-- `Query::get` (`src/query/query.rs:61-109`), with the transport as an
explicit oracle from request index to response header and the wall clock as
`now`. In source order: `Ok` hands the response to `inner.get` (returned
here as the header); `Busy` with `attempt < 5` increments the attempt then
sleeps `attempt * 2` seconds and recurses; `InvalidTransaction` with no
payment attached synthesizes and attaches the implicit payment from the
quoted `header.cost` when all three client defaults exist — sleeping a fixed
1 second before the retry — and otherwise fails with
`PreCheck(InvalidTransaction)`; every other code fails with
`PreCheck(code)`. -/
def Query.getGo (transport : Nat → ResponseHeader) (now : Timestamp)
    (q : Query) (n : Nat) : QueryRun ResponseHeader :=
  let header := transport n
  let sendEv := QEvent.send q.kind q.payment
  if header.precheck = PreCheckCode.ok then
    { result := .ok header, final := q, events := [sendEv], calls := n + 1 }
  else if hb : header.precheck = PreCheckCode.busy ∧ q.attempt < 5 then
    let q' : Query := { q with attempt := q.attempt + 1 }
    let r := Query.getGo transport now q' (n + 1)
    { r with events := sendEv :: QEvent.sleep (q'.attempt * 2) :: r.events }
  else if hp : header.precheck = PreCheckCode.invalidTransaction ∧ q.payment.isNone then
    if q.operator.isSome ∧ q.node.isSome ∧ q.secret.isSome then
      match synthesizePayment
          { node := q.node, operator := q.operator, operator_secret := q.secret }
          now header.cost with
      | .ok ptx =>
        let q' : Query := { q with payment := some ptx }
        let r := Query.getGo transport now q' (n + 1)
        { r with events := sendEv :: QEvent.sleep 1 :: r.events }
      | .err e =>
        { result := .err e, final := q, events := [sendEv], calls := n + 1 }
      | .panic m =>
        { result := .panic m, final := q, events := [sendEv], calls := n + 1 }
    else
      { result := .err (.PreCheck .invalidTransaction), final := q,
        events := [sendEv], calls := n + 1 }
  else
    { result := .err (.PreCheck header.precheck), final := q,
      events := [sendEv], calls := n + 1 }
termination_by (5 - q.attempt) + (if q.payment.isNone then 1 else 0)
decreasing_by
  · have h5 := hb.2
    cases hq : q.payment with
    | none => simp [hq]; omega
    | some p => simp [hq]; omega
  · have h2 := hp.2
    simp [h2]

/-- `Query::get` starts at request index 0. -/
def Query.get (q : Query) (transport : Nat → ResponseHeader)
    (now : Timestamp) : QueryRun ResponseHeader :=
  Query.getGo transport now q 0

/-- `Query::cost` (`src/query/query.rs:111-128`): switch the response type to
`COST_ANSWER`, then the same structure as `get` except that both `Ok` and
`InvalidTransaction` succeed with the quoted `header.cost`. -/
def Query.costGo (transport : Nat → ResponseHeader) (q : Query) (n : Nat) :
    QueryRun Nat :=
  let q1 : Query := { q with kind := ResponseType.costAnswer }
  let header := transport n
  let sendEv := QEvent.send q1.kind q1.payment
  if header.precheck = PreCheckCode.ok ∨ header.precheck = PreCheckCode.invalidTransaction then
    { result := .ok header.cost, final := q1, events := [sendEv], calls := n + 1 }
  else if hb : header.precheck = PreCheckCode.busy ∧ q1.attempt < 5 then
    let q' : Query := { q1 with attempt := q1.attempt + 1 }
    let r := Query.costGo transport q' (n + 1)
    { r with events := sendEv :: QEvent.sleep (q'.attempt * 2) :: r.events }
  else
    { result := .err (.PreCheck header.precheck), final := q1,
      events := [sendEv], calls := n + 1 }
termination_by 5 - q.attempt
decreasing_by
  have h5 := hb.2
  simp_all
  omega

/-- `Query::cost` starts at request index 0. -/
def Query.cost (q : Query) (transport : Nat → ResponseHeader) : QueryRun Nat :=
  Query.costGo transport q 0

/-! ## Claim theorems: transaction engine -/

/-- Whether an `Outcome` is a typed error (`Err(..)` in Rust). -/
def Outcome.isErr {α : Type} : Outcome α → Bool
  | .err _ => true
  | _ => false

/-- C8: `build` is idempotent — on a `Frozen` (`Raw`) or error-latched
transaction it returns the existing state unchanged, and after a successful
`build` from `Building`, a second `build` returns the very same state, hence
byte-identical canonical body bytes (they are computed exactly once at
freeze). -/
theorem build_idempotent (t t' : Transaction) (h : t.build = .ok t') :
    t'.build = .ok t' ∧
    (∀ r, t.kind = .Raw r → t' = t) ∧
    (∀ e, t.kind = .Err e → t' = t) := by
  rcases t with ⟨sec, kind⟩
  cases kind with
  | Empty => simp [Transaction.build] at h
  | Raw r =>
    simp only [Transaction.build] at h
    cases h
    refine ⟨rfl, fun _ _ => rfl, fun e he => ?_⟩
    simp at he
  | Err e =>
    simp only [Transaction.build] at h
    cases h
    refine ⟨rfl, fun r hr => ?_, fun _ _ => rfl⟩
    simp at hr
  | Builder b =>
    simp only [Transaction.build] at h
    refine ⟨?_, fun r hr => ?_, fun e he => ?_⟩
    · cases hb : b.toProtoBody with
      | ok body => rw [hb] at h; cases h; rfl
      | error e => rw [hb] at h; cases h; rfl
    · simp at hr
    · simp at he

/-- A concrete `Building` transaction with both required fields set. -/
def wBuilder : Transaction :=
  { secret := none,
    kind := .Builder
      { id := some ⟨⟨1, 2, 3⟩, ⟨100, 0⟩⟩, node := some ⟨0, 0, 3⟩, memo := none,
        generate_record := false, fee := 10, inner := .cryptoCreateAccount } }

/-- The frozen state `wBuilder.build` produces. -/
def wFrozenBody : TransactionBody :=
  { transactionID := ⟨⟨1, 2, 3⟩, ⟨100, 0⟩⟩, nodeAccountID := ⟨0, 0, 3⟩,
    transactionFee := 10, transactionValidDurationSecs := 120,
    generateRecord := false, memo := "", data := .cryptoCreateAccount }

def wFrozen : Transaction :=
  { secret := none,
    kind := .Raw { tx := { body := wFrozenBody, sigs := none }, bytes := wFrozenBody } }

theorem build_idempotent_witness :
    wBuilder.build = .ok wFrozen ∧ wFrozen.build = .ok wFrozen :=
  ⟨rfl, (build_idempotent wBuilder wFrozen rfl).1⟩


/-- A builder with no operator transaction id. -/
def cxNoOperatorBuilder : TransactionBuilder :=
  { id := none, node := some ⟨0, 0, 3⟩, memo := none, generate_record := false,
    fee := 10, inner := .cryptoCreateAccount }

def cxNoOperator : Transaction := { secret := none, kind := .Builder cxNoOperatorBuilder }

/-- The error-latched state `cxNoOperator.build` leaves behind. -/
def cxLatched : Transaction :=
  { secret := none, kind := .Err (.MissingField "operator") }

/-- C3 counterexample: building a transaction with no operator id latches
`MissingField("operator")`, but a subsequent `sign` call does NOT return that
error — `sign`'s return channel carries no error at all (in Rust its return
type is `&mut Self`); it silently returns the unchanged transaction. The
claim that "the same error is returned by every subsequent build, sign, or
execute call" is therefore false at this input for `sign` (and for `build`,
which also returns the transaction, not the error). -/
theorem sign_does_not_return_latched_error :
    cxNoOperator.build = .ok cxLatched ∧
    cxLatched.kind = .Err (.MissingField "operator") ∧
    cxLatched.signRaw ⟨0⟩ = .ok cxLatched ∧
    (cxLatched.signRaw ⟨0⟩).isErr = false ∧
    cxLatched.build = .ok cxLatched ∧
    (cxLatched.build).isErr = false :=
  ⟨rfl, rfl, rfl, rfl, rfl, rfl⟩

/-- C3 (amended): `build` on a `Building` transaction with no operator id
latches `MissingField("operator")`; with an operator but no node id it
latches `MissingField("node")`. Subsequent `build` and `sign` calls are
no-ops that preserve the latched state (their return types have no error
channel), and the first subsequent `execute` (or raw-extraction, as when
attaching the transaction as a query payment) returns exactly the latched
error. -/
theorem build_missing_field_latches
    (sk : Option SecretKey) (b : TransactionBuilder) (k : SecretKey)
    (e : ErrorKind) (t' : Transaction) (f : ProtoTransaction → PreCheckCode) :
    (b.id = none →
      Transaction.build ⟨sk, .Builder b⟩ = .ok ⟨sk, .Err (.MissingField "operator")⟩) ∧
    (∀ i, b.id = some i → b.node = none →
      Transaction.build ⟨sk, .Builder b⟩ = .ok ⟨sk, .Err (.MissingField "node")⟩) ∧
    (t'.kind = .Err e →
      t'.build = .ok t' ∧ t'.signRaw k = .ok t' ∧
      (t'.execute f).1 = .err e ∧ t'.takeRaw = .err e) := by
  refine ⟨?_, ?_, ?_⟩
  · intro hid
    simp [Transaction.build, TransactionBuilder.toProtoBody, hid]
  · intro i hid hnode
    simp [Transaction.build, TransactionBuilder.toProtoBody, hid, hnode]
  · intro hkind
    rcases t' with ⟨sec, kind⟩
    simp only at hkind
    subst hkind
    exact ⟨rfl, rfl, rfl, rfl⟩

/-- A builder with an operator id but no node id. -/
def wNoNodeBuilder : TransactionBuilder :=
  { id := some ⟨⟨0, 0, 2⟩, ⟨100, 0⟩⟩, node := none, memo := none,
    generate_record := false, fee := 10, inner := .cryptoCreateAccount }

theorem build_missing_field_latches_witness :
    Transaction.build ⟨none, .Builder cxNoOperatorBuilder⟩ =
      .ok ⟨none, .Err (.MissingField "operator")⟩ ∧
    Transaction.build ⟨none, .Builder wNoNodeBuilder⟩ =
      .ok ⟨none, .Err (.MissingField "node")⟩ ∧
    Transaction.build ⟨none, .Err (.MissingField "node")⟩ =
      .ok ⟨none, .Err (.MissingField "node")⟩ ∧
    Transaction.signRaw ⟨none, .Err (.MissingField "node")⟩ ⟨0⟩ =
      .ok ⟨none, .Err (.MissingField "node")⟩ ∧
    (Transaction.execute ⟨none, .Err (.MissingField "node")⟩ fun _ => .ok).1 =
      .err (.MissingField "node") :=
  have h1 := build_missing_field_latches none cxNoOperatorBuilder ⟨0⟩
    (.MissingField "operator") ⟨none, .Err (.MissingField "operator")⟩ fun _ => .ok
  have h2 := build_missing_field_latches none wNoNodeBuilder ⟨0⟩
    (.MissingField "node") ⟨none, .Err (.MissingField "node")⟩ fun _ => .ok
  ⟨h1.1 rfl, h2.2.1 ⟨⟨0, 0, 2⟩, ⟨100, 0⟩⟩ rfl rfl,
    (h2.2.2 rfl).1, (h2.2.2 rfl).2.1, (h2.2.2 rfl).2.2.1⟩


/-- One explicit `sign` call on a frozen transaction: signs the frozen bytes,
wraps for file operations, appends at the end of the (created-if-absent)
signature list. -/
theorem signRaw_eq (t : Transaction) (raw : TransactionRaw) (k : SecretKey)
    (h : t.kind = .Raw raw) :
    t.signRaw k = .ok { t with kind := .Raw { raw with tx := { raw.tx with
      sigs := some (raw.tx.sigs.getD [] ++
        [wrapIfFileOp raw.tx.body.data (.ed25519 k raw.bytes)]) } } } := by
  rcases t with ⟨sec, kind⟩
  simp only at h
  subst h
  rfl

/-- Iterated explicit `sign` calls starting from an existing signature list
append one entry per key, in call order. -/
theorem signMany_eq (ks : List SecretKey) (t : Transaction) (raw : TransactionRaw)
    (s : List Signature) (h : t.kind = .Raw raw) (hs : raw.tx.sigs = some s) :
    t.signMany ks = .ok { t with kind := .Raw { raw with tx := { raw.tx with
      sigs := some (s ++ ks.map fun k =>
        wrapIfFileOp raw.tx.body.data (.ed25519 k raw.bytes)) } } } := by
  induction ks generalizing t raw s with
  | nil =>
    rcases t with ⟨sec, kind⟩
    simp only at h
    subst h
    rcases raw with ⟨bytes, tx⟩
    rcases tx with ⟨body, sigs⟩
    simp only at hs
    subst hs
    simp [Transaction.signMany]
  | cons k ks ih =>
    simp only [Transaction.signMany, signRaw_eq t raw k h]
    rw [ih _ _ (s ++ [wrapIfFileOp raw.tx.body.data (.ed25519 k raw.bytes)]) rfl
      (by simp [hs])]
    simp [hs]

/-- C4: on a frozen transaction whose payload is a file-create or
file-append, every explicitly-added signature — the first included, hence in
particular every one after the first — is wrapped as a nested single-element
signature list; for every other payload kind every explicit signature is
appended flat; in both cases in call order at the end of the list. -/
theorem sign_wraps_file_signatures (t : Transaction) (raw : TransactionRaw)
    (k : SecretKey) (ks : List SecretKey) (h : t.kind = .Raw raw) :
    ((raw.tx.body.data = .fileCreate ∨ raw.tx.body.data = .fileAppend) →
      t.signMany (k :: ks) = .ok { t with kind := .Raw { raw with tx := { raw.tx with
        sigs := some (raw.tx.sigs.getD [] ++ (k :: ks).map fun k' =>
          Signature.sigList [Signature.ed25519 k' raw.bytes]) } } }) ∧
    (raw.tx.body.data ≠ .fileCreate → raw.tx.body.data ≠ .fileAppend →
      t.signMany (k :: ks) = .ok { t with kind := .Raw { raw with tx := { raw.tx with
        sigs := some (raw.tx.sigs.getD [] ++ (k :: ks).map fun k' =>
          Signature.ed25519 k' raw.bytes) } } }) := by
  have step : t.signMany (k :: ks) = .ok { t with kind := .Raw { raw with tx := { raw.tx with
      sigs := some (raw.tx.sigs.getD [] ++ (k :: ks).map fun k' =>
        wrapIfFileOp raw.tx.body.data (.ed25519 k' raw.bytes)) } } } := by
    simp only [Transaction.signMany, signRaw_eq t raw k h]
    rw [signMany_eq ks _ _
      (raw.tx.sigs.getD [] ++ [wrapIfFileOp raw.tx.body.data (.ed25519 k raw.bytes)])
      rfl (by simp)]
    simp
  constructor
  · intro hfile
    rw [step]
    rcases hfile with hf | hf <;> simp [hf, wrapIfFileOp]
  · intro h1 h2
    rw [step]
    have : ∀ sig, wrapIfFileOp raw.tx.body.data sig = sig := by
      intro sig
      cases hd : raw.tx.body.data <;> simp_all [wrapIfFileOp]
    simp [this]


/-- A frozen file-append transaction with no signatures yet. -/
def wFileBody : TransactionBody :=
  { transactionID := ⟨⟨0, 0, 2⟩, ⟨100, 0⟩⟩, nodeAccountID := ⟨0, 0, 3⟩,
    transactionFee := 10, transactionValidDurationSecs := 120,
    generateRecord := false, memo := "", data := .fileAppend }

def wFileTx : Transaction :=
  { secret := none, kind := .Raw { bytes := wFileBody, tx := { body := wFileBody, sigs := none } } }

/-- A frozen crypto-transfer transaction with no signatures yet. -/
def wXferBody : TransactionBody :=
  { transactionID := ⟨⟨0, 0, 2⟩, ⟨100, 0⟩⟩, nodeAccountID := ⟨0, 0, 3⟩,
    transactionFee := 10, transactionValidDurationSecs := 120,
    generateRecord := false, memo := "", data := .cryptoTransfer [] }

def wXferTx : Transaction :=
  { secret := none, kind := .Raw { bytes := wXferBody, tx := { body := wXferBody, sigs := none } } }

/-- Expected states after the two explicit sign calls. -/
def wFileSigned : Transaction where
  secret := none
  kind := .Raw { bytes := wFileBody, tx := { body := wFileBody, sigs := some [.sigList [.ed25519 ⟨1⟩ wFileBody], .sigList [.ed25519 ⟨2⟩ wFileBody]] } }

def wXferSigned : Transaction where
  secret := none
  kind := .Raw { bytes := wXferBody, tx := { body := wXferBody, sigs := some [.ed25519 ⟨1⟩ wXferBody, .ed25519 ⟨2⟩ wXferBody] } }

theorem sign_wraps_file_signatures_witness :
    wFileTx.signMany [⟨1⟩, ⟨2⟩] = .ok wFileSigned ∧
    wXferTx.signMany [⟨1⟩, ⟨2⟩] = .ok wXferSigned := by
  constructor
  · have h := (sign_wraps_file_signatures wFileTx _ ⟨1⟩ [⟨2⟩] rfl).1 (Or.inr rfl)
    simpa [wFileTx, wFileSigned] using h
  · have h := (sign_wraps_file_signatures wXferTx _ ⟨1⟩ [⟨2⟩] rfl).2
      (by intro hc; cases hc) (by intro hc; cases hc)
    simpa [wXferTx, wXferSigned] using h

/-- `defaultDeleteTransfer` never touches the signature list. -/
theorem defaultDeleteTransfer_sigs (tx : ProtoTransaction) :
    (defaultDeleteTransfer tx).sigs = tx.sigs := by
  rw [defaultDeleteTransfer]
  split <;> rfl

/-- C10: executing a frozen transaction whose client captured an operator
secret key, when no explicit `sign` call ever created the signature-list
container (`tx.sigs` unset), panics on the `unwrap` while inserting the
operator signature instead of returning a typed error; and `build` itself
always leaves the container unset — only the first explicit `sign` call
creates it. -/
theorem execute_without_explicit_sign_panics (t : Transaction)
    (raw : TransactionRaw) (k : SecretKey) (f : ProtoTransaction → PreCheckCode)
    (hk : t.secret = some k) (h : t.kind = .Raw raw) (hs : raw.tx.sigs = none) :
    (t.execute f).1 = .panic "called unwrap on None" ∧
    (∀ sk b body, TransactionBuilder.toProtoBody b = .ok body →
      Transaction.build ⟨sk, .Builder b⟩ =
        .ok ⟨sk, .Raw { tx := { body := body, sigs := none },
                        bytes := writeToBytes body }⟩) := by
  constructor
  · rcases t with ⟨sec, kind⟩
    simp only at h hk
    subst h
    subst hk
    simp [Transaction.execute, prepareForDispatch, hs]
  · intro sk b body hb
    simp [Transaction.build, hb]

/-- A builder with all required fields and a transfer payload. -/
def wSimpleBuilder : TransactionBuilder :=
  { id := some ⟨⟨0, 0, 2⟩, ⟨100, 0⟩⟩, node := some ⟨0, 0, 3⟩, memo := none,
    generate_record := false, fee := 10, inner := .cryptoTransfer [] }

/-- The frozen crypto-transfer transaction held by a client with an operator
key, with zero explicit sign calls. -/
def wOperatorNoSigTx : Transaction where
  secret := some ⟨7⟩
  kind := .Raw { bytes := wXferBody, tx := { body := wXferBody, sigs := none } }

/-- The frozen state produced by building `wSimpleBuilder`: note `sigs` is
unset. -/
def wSimpleBuilt : Transaction where
  secret := some ⟨7⟩
  kind := .Raw { bytes := wXferBody, tx := { body := wXferBody, sigs := none } }

theorem execute_without_explicit_sign_panics_witness :
    (wOperatorNoSigTx.execute fun _ => .ok).1 = .panic "called unwrap on None" ∧
    Transaction.build ⟨some ⟨7⟩, .Builder wSimpleBuilder⟩ = .ok wSimpleBuilt :=
  by
  have h := execute_without_explicit_sign_panics wOperatorNoSigTx
    { bytes := wXferBody, tx := { body := wXferBody, sigs := none } } ⟨7⟩
    (fun _ => .ok) rfl rfl rfl
  refine ⟨h.1, ?_⟩
  have h2 := h.2 (some ⟨7⟩) wSimpleBuilder wXferBody (by rfl)
  simpa [wSimpleBuilt] using h2

/-- C5 counterexample: a frozen transaction whose client holds an operator
key but on which zero explicit `sign` calls were made. `execute` panics
instead of inserting the operator signature and dispatching, so the claim
"index 0 corresponds to the operator key regardless of how many explicit
sign calls preceded execute" fails at zero preceding calls. -/
theorem execute_zero_signs_no_insertion :
    wOperatorNoSigTx.secret = some ⟨7⟩ ∧
    (wOperatorNoSigTx.execute fun _ => .ok).1 = .panic "called unwrap on None" ∧
    ((wOperatorNoSigTx.execute fun _ => .ok).1).isErr = false :=
  ⟨rfl, rfl, rfl⟩

/-- C5 (amended): for every frozen transaction whose client captured an
operator secret key and on which at least one explicit `sign` call created
the signature-list container, `execute` inserts the operator signature —
computed over the frozen canonical body bytes — at index 0 of that list
immediately before dispatch, regardless of how many explicit signatures `s`
the list holds. -/
theorem execute_inserts_operator_sig_at_index_zero (t : Transaction)
    (raw : TransactionRaw) (k : SecretKey) (s : List Signature)
    (hk : t.secret = some k) (h : t.kind = .Raw raw) (hs : raw.tx.sigs = some s) :
    prepareForDispatch t.secret raw = some (defaultDeleteTransfer
      { raw.tx with sigs := some (Signature.ed25519 k raw.bytes :: s) }) ∧
    (defaultDeleteTransfer
      { raw.tx with sigs := some (Signature.ed25519 k raw.bytes :: s) }).sigs =
      some (Signature.ed25519 k raw.bytes :: s) ∧
    (t.execute fun _ => PreCheckCode.ok).1 = .ok
      ((defaultDeleteTransfer
        { raw.tx with sigs := some (Signature.ed25519 k raw.bytes :: s) }).body.transactionID,
       defaultDeleteTransfer
        { raw.tx with sigs := some (Signature.ed25519 k raw.bytes :: s) }) := by
  rcases t with ⟨sec, kind⟩
  simp only at h hk
  subst h
  subst hk
  refine ⟨?_, defaultDeleteTransfer_sigs _, ?_⟩
  · simp [prepareForDispatch, hs]
  · simp [Transaction.execute, prepareForDispatch, hs]

/-- A frozen crypto-transfer transaction with an operator key and one
explicit signature. -/
def wOperatorOneSigTx : Transaction where
  secret := some ⟨9⟩
  kind := .Raw { bytes := wXferBody, tx := { body := wXferBody, sigs := some [.ed25519 ⟨1⟩ wXferBody] } }

/-- The message as dispatched: operator signature at index 0, the one
explicit signature after it. -/
def wDispatched : ProtoTransaction where
  body := wXferBody
  sigs := some [.ed25519 ⟨9⟩ wXferBody, .ed25519 ⟨1⟩ wXferBody]

def wOneSigRaw : TransactionRaw where
  bytes := wXferBody
  tx := { body := wXferBody, sigs := some [.ed25519 ⟨1⟩ wXferBody] }

theorem execute_inserts_operator_sig_witness :
    prepareForDispatch (some ⟨9⟩) wOneSigRaw = some wDispatched ∧
    wDispatched.sigs = some [.ed25519 ⟨9⟩ wXferBody, .ed25519 ⟨1⟩ wXferBody] ∧
    (wOperatorOneSigTx.execute fun _ => PreCheckCode.ok).1 =
      .ok (wXferBody.transactionID, wDispatched) := by
  have h := execute_inserts_operator_sig_at_index_zero wOperatorOneSigTx wOneSigRaw ⟨9⟩
    [.ed25519 ⟨1⟩ wXferBody] rfl rfl rfl
  simpa [wOperatorOneSigTx, wOneSigRaw, wDispatched, defaultDeleteTransfer,
    wXferBody] using h


/-! ## Claim theorems: query engine -/

/-- A client with all three defaults configured. -/
def demoClient : Client :=
  { node := some ⟨0, 0, 3⟩, operator := some ⟨0, 0, 2⟩, operator_secret := some ⟨42⟩ }

def demoNow : Timestamp := ⟨1000000, 0⟩

/-- Transport: `Busy` on the first 4 requests, then `Ok`. -/
def busy4ThenOk : Nat → ResponseHeader := fun n => if n < 4 then ⟨.busy, 0⟩ else ⟨.ok, 7⟩

/-- Transport: `Busy` on the first 5 requests, then `Ok`. -/
def busy5ThenOk : Nat → ResponseHeader := fun n => if n < 5 then ⟨.busy, 0⟩ else ⟨.ok, 7⟩

/-- Transport: `Busy` on every request. -/
def alwaysBusy : Nat → ResponseHeader := fun _ => ⟨.busy, 0⟩

/-- C2 counterexample: with a transport that returns `Busy` on exactly the
first 5 requests and then `Ok`, the claim says the 5th consecutive `Busy`
exhausts the retry budget and the call fails with `PreCheck(Busy)`; in the
code the 5th `Busy` still satisfies `attempt < 5` (attempt was 4), so the
engine sleeps a 5th time (10 s) and the 6th request succeeds — for `get()`
and identically for `cost()`. -/
theorem fifth_consecutive_busy_still_retries :
    ((Query.new demoClient).get busy5ThenOk demoNow).result = .ok ⟨.ok, 7⟩ ∧
    (((Query.new demoClient).get busy5ThenOk demoNow).result).isErr = false ∧
    ((Query.new demoClient).get busy5ThenOk demoNow).calls = 6 ∧
    ((Query.new demoClient).get busy5ThenOk demoNow).events =
      [.send .answerOnly none, .sleep 2, .send .answerOnly none, .sleep 4,
       .send .answerOnly none, .sleep 6, .send .answerOnly none, .sleep 8,
       .send .answerOnly none, .sleep 10, .send .answerOnly none] ∧
    ((Query.new demoClient).cost busy5ThenOk).result = .ok 7 ∧
    (((Query.new demoClient).cost busy5ThenOk).result).isErr = false ∧
    ((Query.new demoClient).cost busy5ThenOk).calls = 6 ∧
    ((Query.new demoClient).cost busy5ThenOk).events =
      [.send .costAnswer none, .sleep 2, .send .costAnswer none, .sleep 4,
       .send .costAnswer none, .sleep 6, .send .costAnswer none, .sleep 8,
       .send .costAnswer none, .sleep 10, .send .costAnswer none] := by
  refine ⟨?_, ?_, ?_, ?_, ?_, ?_, ?_, ?_⟩ <;>
    simp [Query.get, Query.getGo, Query.cost, Query.costGo, Query.new,
      demoClient, busy5ThenOk, Outcome.isErr]

/-- C2 (amended): in both `get()` and `cost()`, each `Busy` response with
`attempt < 5` increments the attempt and then sleeps `attempt * 2` seconds
before retrying; a transport returning `Busy` 4 times then `Ok` yields
exactly 4 sleeps of durations `(2,4,6,8)` seconds and success on the 5th
request; the retry budget is exhausted only at the 6th consecutive `Busy` —
an all-`Busy` transport produces 6 requests and 5 sleeps `(2,4,6,8,10)`
before failing with `PreCheck(Busy)`, again in both `get()` and `cost()`. -/
theorem busy_linear_backoff (transport : Nat → ResponseHeader) (now : Timestamp)
    (q : Query) (n : Nat)
    (hbusy : (transport n).precheck = .busy) (hatt : q.attempt < 5) :
    Query.getGo transport now q n =
      { Query.getGo transport now { q with attempt := q.attempt + 1 } (n + 1) with
        events := QEvent.send q.kind q.payment ::
          QEvent.sleep ((q.attempt + 1) * 2) ::
          (Query.getGo transport now { q with attempt := q.attempt + 1 } (n + 1)).events } ∧
    Query.costGo transport q n =
      { Query.costGo transport { q with kind := ResponseType.costAnswer, attempt := q.attempt + 1 } (n + 1) with
        events := QEvent.send ResponseType.costAnswer q.payment ::
          QEvent.sleep ((q.attempt + 1) * 2) ::
          (Query.costGo transport { q with kind := ResponseType.costAnswer, attempt := q.attempt + 1 } (n + 1)).events } ∧
    (((Query.new demoClient).get busy4ThenOk demoNow).result = .ok ⟨.ok, 7⟩ ∧
     ((Query.new demoClient).get busy4ThenOk demoNow).calls = 5 ∧
     ((Query.new demoClient).get busy4ThenOk demoNow).events =
       [.send .answerOnly none, .sleep 2, .send .answerOnly none, .sleep 4,
        .send .answerOnly none, .sleep 6, .send .answerOnly none, .sleep 8,
        .send .answerOnly none]) ∧
    (((Query.new demoClient).get alwaysBusy demoNow).result =
       .err (.PreCheck .busy) ∧
     ((Query.new demoClient).get alwaysBusy demoNow).calls = 6 ∧
     ((Query.new demoClient).get alwaysBusy demoNow).events =
       [.send .answerOnly none, .sleep 2, .send .answerOnly none, .sleep 4,
        .send .answerOnly none, .sleep 6, .send .answerOnly none, .sleep 8,
        .send .answerOnly none, .sleep 10, .send .answerOnly none]) ∧
    (((Query.new demoClient).cost busy4ThenOk).result = .ok 7 ∧
     ((Query.new demoClient).cost busy4ThenOk).calls = 5 ∧
     ((Query.new demoClient).cost busy4ThenOk).events =
       [.send .costAnswer none, .sleep 2, .send .costAnswer none, .sleep 4,
        .send .costAnswer none, .sleep 6, .send .costAnswer none, .sleep 8,
        .send .costAnswer none]) ∧
    (((Query.new demoClient).cost alwaysBusy).result = .err (.PreCheck .busy) ∧
     ((Query.new demoClient).cost alwaysBusy).calls = 6 ∧
     ((Query.new demoClient).cost alwaysBusy).events =
       [.send .costAnswer none, .sleep 2, .send .costAnswer none, .sleep 4,
        .send .costAnswer none, .sleep 6, .send .costAnswer none, .sleep 8,
        .send .costAnswer none, .sleep 10, .send .costAnswer none]) := by
  refine ⟨?_, ?_, ⟨?_, ?_, ?_⟩, ⟨?_, ?_, ?_⟩, ⟨?_, ?_, ?_⟩, ⟨?_, ?_, ?_⟩⟩
  · conv_lhs => rw [Query.getGo]
    simp [hbusy, hatt]
  · conv_lhs => rw [Query.costGo]
    simp [hbusy, hatt]
  all_goals
    simp [Query.get, Query.getGo, Query.cost, Query.costGo, Query.new,
      demoClient, busy4ThenOk, alwaysBusy]

theorem busy_linear_backoff_witness :
    Query.getGo alwaysBusy demoNow (Query.new demoClient) 0 =
      { Query.getGo alwaysBusy demoNow
          { Query.new demoClient with attempt := (Query.new demoClient).attempt + 1 } (0 + 1) with
        events := QEvent.send (Query.new demoClient).kind (Query.new demoClient).payment ::
          QEvent.sleep (((Query.new demoClient).attempt + 1) * 2) ::
          (Query.getGo alwaysBusy demoNow
            { Query.new demoClient with attempt := (Query.new demoClient).attempt + 1 } (0 + 1)).events } ∧
    Query.costGo alwaysBusy (Query.new demoClient) 0 =
      { Query.costGo alwaysBusy { Query.new demoClient with kind := ResponseType.costAnswer, attempt := (Query.new demoClient).attempt + 1 } (0 + 1) with
        events := QEvent.send ResponseType.costAnswer (Query.new demoClient).payment ::
          QEvent.sleep (((Query.new demoClient).attempt + 1) * 2) ::
          (Query.costGo alwaysBusy { Query.new demoClient with kind := ResponseType.costAnswer, attempt := (Query.new demoClient).attempt + 1 } (0 + 1)).events } ∧
    ((Query.new demoClient).get busy4ThenOk demoNow).result = .ok ⟨.ok, 7⟩ ∧
    ((Query.new demoClient).get alwaysBusy demoNow).result = .err (.PreCheck .busy) ∧
    ((Query.new demoClient).cost busy4ThenOk).result = .ok 7 ∧
    ((Query.new demoClient).cost alwaysBusy).result = .err (.PreCheck .busy) :=
  have h := busy_linear_backoff alwaysBusy demoNow (Query.new demoClient) 0 rfl (by decide)
  ⟨h.1, h.2.1, h.2.2.1.1, h.2.2.2.1.1, h.2.2.2.2.1.1, h.2.2.2.2.2.1⟩

/-- C6: `cost()` sends with `COST_ANSWER`, treats both `Ok` and
`InvalidTransaction` as success returning the quoted fee from the response
header, and fails with `PreCheck(code)` on every other non-`Busy` code. -/
theorem cost_quotes_fee (q : Query) (transport : Nat → ResponseHeader) :
    (((transport 0).precheck = .ok ∨ (transport 0).precheck = .invalidTransaction) →
      (q.cost transport).result = .ok (transport 0).cost ∧
      (q.cost transport).events = [.send .costAnswer q.payment] ∧
      (q.cost transport).calls = 1) ∧
    (∀ m, (transport 0).precheck = .other m →
      (q.cost transport).result = .err (.PreCheck (.other m)) ∧
      (q.cost transport).events = [.send .costAnswer q.payment] ∧
      (q.cost transport).calls = 1) := by
  constructor
  · intro h
    rw [Query.cost, Query.costGo]
    refine ⟨?_, ?_, ?_⟩ <;> simp [if_pos h]
  · intro m hm
    rw [Query.cost, Query.costGo]
    refine ⟨?_, ?_, ?_⟩ <;> simp [hm]

/-- Transport: `InvalidTransaction` quoting a cost on every request. -/
def alwaysInvalidQuote : Nat → ResponseHeader := fun _ => ⟨.invalidTransaction, 500000⟩

/-- Transport: an unclassified terminal code on every request. -/
def alwaysOther13 : Nat → ResponseHeader := fun _ => ⟨.other 13, 0⟩

theorem cost_quotes_fee_witness :
    ((Query.new demoClient).cost alwaysInvalidQuote).result = .ok 500000 ∧
    ((Query.new demoClient).cost alwaysInvalidQuote).events = [.send .costAnswer none] ∧
    ((Query.new demoClient).cost alwaysOther13).result = .err (.PreCheck (.other 13)) :=
  have h1 := (cost_quotes_fee (Query.new demoClient) alwaysInvalidQuote).1 (Or.inr rfl)
  have h2 := (cost_quotes_fee (Query.new demoClient) alwaysOther13).2 13 rfl
  ⟨h1.1, h1.2.1, h2.1⟩

/-- C7: `get()` receiving `InvalidTransaction` with no payment attached, on a
client missing any of the operator, node, or secret defaults, fails with
`PreCheck(InvalidTransaction)`; no payment transaction is synthesized or
attached (the query is completely unchanged), and no retry happens. -/
theorem get_missing_defaults_fails (q : Query) (transport : Nat → ResponseHeader)
    (now : Timestamp) (hpay : q.payment = none)
    (hmiss : q.operator = none ∨ q.node = none ∨ q.secret = none)
    (h0 : (transport 0).precheck = .invalidTransaction) :
    (q.get transport now).result = .err (.PreCheck .invalidTransaction) ∧
    (q.get transport now).final = q ∧
    (q.get transport now).final.payment = none ∧
    (q.get transport now).events = [.send q.kind none] ∧
    (q.get transport now).calls = 1 := by
  have hdef : ¬(q.operator.isSome = true ∧ q.node.isSome = true ∧ q.secret.isSome = true) := by
    rcases hmiss with h | h | h <;> simp [h]
  rw [Query.get, Query.getGo]
  refine ⟨?_, ?_, ?_, ?_, ?_⟩ <;> simp [h0, hpay, hdef]

/-- A client with no configured operator. -/
def noOperatorClient : Client :=
  { node := some ⟨0, 0, 3⟩, operator := none, operator_secret := some ⟨42⟩ }

theorem get_missing_defaults_fails_witness :
    ((Query.new noOperatorClient).get alwaysInvalidQuote demoNow).result =
      .err (.PreCheck .invalidTransaction) ∧
    ((Query.new noOperatorClient).get alwaysInvalidQuote demoNow).final.payment = none ∧
    ((Query.new noOperatorClient).get alwaysInvalidQuote demoNow).calls = 1 :=
  have h := get_missing_defaults_fails (Query.new noOperatorClient)
    alwaysInvalidQuote demoNow rfl (Or.inl rfl) rfl
  ⟨h.1, h.2.2.1, h.2.2.2.2⟩


/-- The payment transaction `get()` synthesizes in its `InvalidTransaction`
branch: a crypto-transfer of the quoted cost `c` — credited to the node,
debited from the operator — under the client defaults, frozen but carrying
no signatures at all (`sigs` unset: the code never calls `sign` on it and
the operator signature is only ever inserted by `execute`, which is never
called on a payment). -/
def synthesizedPaymentTx (o nd : AccountId) (now : Timestamp) (c : Nat) :
    ProtoTransaction where
  body :=
    { transactionID := TransactionId.new o now, nodeAccountID := nd,
      transactionFee := 10, transactionValidDurationSecs := 120,
      generateRecord := false, memo := "",
      data := .cryptoTransfer [(nd, (c : Int)), (o, -(c : Int))] }
  sigs := none

/-- Transport: `InvalidTransaction` quoting 500000 on the first request,
`Ok` afterwards. -/
def payThenOk : Nat → ResponseHeader :=
  fun n => if n = 0 then ⟨.invalidTransaction, 500000⟩ else ⟨.ok, 0⟩

/-- C1 counterexample: on the claim's own scenario (client with all
defaults, server quoting a cost of 500000 inside the `InvalidTransaction`
header, then answering `Ok`), the engine never invokes `cost()` — the event
trace contains no `COST_ANSWER` request at all; the fee is read from the
`cost` field of the same `InvalidTransaction` response header — and the
attached payment transaction is not signed: its signature list is absent
(`sigs = none`), not "fully signed". -/
theorem get_reads_quoted_cost_and_attaches_unsigned_payment :
    ((Query.new demoClient).get payThenOk demoNow).events =
      [.send .answerOnly none, .sleep 1,
       .send .answerOnly (some (synthesizedPaymentTx ⟨0, 0, 2⟩ ⟨0, 0, 3⟩ demoNow 500000))] ∧
    (((Query.new demoClient).get payThenOk demoNow).events.all fun e =>
      match e with
      | .send .costAnswer _ => false
      | _ => true) = true ∧
    (synthesizedPaymentTx ⟨0, 0, 2⟩ ⟨0, 0, 3⟩ demoNow 500000).sigs = none ∧
    ((Query.new demoClient).get payThenOk demoNow).final.payment =
      some (synthesizedPaymentTx ⟨0, 0, 2⟩ ⟨0, 0, 3⟩ demoNow 500000) ∧
    ((Query.new demoClient).get payThenOk demoNow).result = .ok ⟨.ok, 0⟩ ∧
    ((Query.new demoClient).get payThenOk demoNow).calls = 2 := by
  refine ⟨?_, ?_, rfl, ?_, ?_, ?_⟩ <;>
    simp [Query.get, Query.getGo, Query.new, demoClient, payThenOk, demoNow,
      synthesizePayment, Transaction.new, Transaction.transfer, Transaction.build,
      TransactionBuilder.toProtoBody, Transaction.takeRaw, writeToBytes,
      synthesizedPaymentTx, List.all]

/-- C1 (amended): on `InvalidTransaction` with no payment attached and all
three client defaults present, `get()` reads the required fee `c` directly
from the `cost` field of that same response header (it does not invoke
`cost()`), synthesizes an unsigned frozen crypto-transfer moving `c`
tinybars from the default operator to the default node, attaches it as the
query's payment, sleeps a fixed 1 second, and retries `get()` exactly once
more, which succeeds when the node then answers `Ok`. -/
theorem payment_negotiation_retries_once (o nd : AccountId) (k : SecretKey)
    (now : Timestamp) (c : Nat) (hc : c < 2 ^ 63)
    (transport : Nat → ResponseHeader)
    (h0 : transport 0 = ⟨.invalidTransaction, c⟩)
    (h1 : (transport 1).precheck = .ok) :
    (Query.new ⟨some nd, some o, some k⟩).get transport now =
      { result := .ok (transport 1),
        final := { Query.new ⟨some nd, some o, some k⟩ with
          payment := some (synthesizedPaymentTx o nd now c) },
        events := [.send .answerOnly none, .sleep 1,
          .send .answerOnly (some (synthesizedPaymentTx o nd now c))],
        calls := 2 } := by
  have inner :
      Query.getGo transport now { kind := .answerOnly, payment := some (synthesizedPaymentTx o nd now c), secret := some k, operator := some o, node := some nd, attempt := 0 } 1 =
      { result := .ok (transport 1), final := { kind := .answerOnly, payment := some (synthesizedPaymentTx o nd now c), secret := some k, operator := some o, node := some nd, attempt := 0 }, events := [.send .answerOnly (some (synthesizedPaymentTx o nd now c))], calls := 2 } := by
    rw [Query.getGo]
    simp [h1]
  have hc' : c < 9223372036854775808 := hc
  simp only [synthesizedPaymentTx] at inner
  rw [Query.get, Query.getGo]
  simp [h0, hc', Query.new, synthesizePayment, Transaction.new, Transaction.transfer,
    Transaction.build, TransactionBuilder.toProtoBody, Transaction.takeRaw,
    writeToBytes, synthesizedPaymentTx, inner]

theorem payment_negotiation_retries_once_witness :
    (Query.new ⟨some ⟨0, 0, 3⟩, some ⟨0, 0, 2⟩, some ⟨42⟩⟩).get payThenOk demoNow =
      { result := .ok (payThenOk 1),
        final := { Query.new ⟨some ⟨0, 0, 3⟩, some ⟨0, 0, 2⟩, some ⟨42⟩⟩ with
          payment := some (synthesizedPaymentTx ⟨0, 0, 2⟩ ⟨0, 0, 3⟩ demoNow 500000) },
        events := [.send .answerOnly none, .sleep 1,
          .send .answerOnly (some (synthesizedPaymentTx ⟨0, 0, 2⟩ ⟨0, 0, 3⟩ demoNow 500000))],
        calls := 2 } :=
  payment_negotiation_retries_once ⟨0, 0, 2⟩ ⟨0, 0, 3⟩ ⟨42⟩ demoNow 500000
    (by decide) payThenOk rfl rfl

end Hedera
